import Mathlib

/-!
Verification of the browser proxy service of `alex-assist`
(`backend/app/services/browser_proxy.py` and `backend/app/routers/browser.py`).

The Python service is shallowly embedded as executable Lean definitions.
Pure control flow and string manipulation of the repository are translated
directly; external library calls (httpx network I/O, gzip/zlib/brotli
decompression, chardet statistical detection, codec decoding, the
BeautifulSoup parser and the `urljoin` resolver) are modelled as explicit
function parameters collected in an `Env` record, so that every theorem
quantifies over their behaviour.  The BeautifulSoup document tree is
modelled by the `Node` inductive; the five `find_all` rewrite loops of
`_rewrite_urls` become five tree passes of the generic `passNodes`.
-/

/-- Tree of parsed HTML nodes, modelling the BeautifulSoup document:
an element carries its (lower-cased, as produced by the lxml parser) tag
name, its attribute list in document order, and its children. -/
inductive Node where
  | text (s : String)
  | elem (tag : String) (attrs : List (String × String)) (children : List Node)

/-- Attribute lookup, modelling `tag[k]` / `tag.has_attr(k)`: the value of
the first attribute whose name equals `k`. -/
def getAttr (a : List (String × String)) (k : String) : Option String :=
  (a.find? (fun p => p.1 == k)).map (·.2)

/-- Attribute update, modelling `tag[k] = v` on a present attribute:
replaces the value of attribute `k` in place, keeping attribute order. -/
def setAttr (a : List (String × String)) (k v : String) : List (String × String) :=
  a.map (fun p => if p.1 == k then (k, v) else p)

mutual
/-- One rewriting pass of `_rewrite_urls`
(browser_proxy.py lines 228-246): the loop
`for tag in soup.find_all(t, k=True): tag[k] = urljoin(base_url, tag[k])`,
with `f = urljoin base_url`.  `find_all(t, k=True)` matches every element
named `t` on which attribute `k` is present (with any value, the empty
string included). -/
def passNode (f : String → String) (t k : String) : Node → Node
  | .text s => .text s
  | .elem t' a cs =>
    let a' := if t' == t then
        match getAttr a k with
        | some v => setAttr a k (f v)
        | none => a
      else a
    .elem t' a' (passNodes f t k cs)

/-- List part of `passNode`. -/
def passNodes (f : String → String) (t k : String) : List Node → List Node
  | [] => []
  | n :: ns => passNode f t k n :: passNodes f t k ns
end

/-- All five rewriting passes of `_rewrite_urls` in source order:
`<a href>`, `<img src>`, `<link href>`, `<script src>`, `<form action>`
(browser_proxy.py lines 228-246).  The five passes touch pairwise
distinct tag names, so running them in sequence is the behaviour of the
five consecutive `find_all` loops. -/
def rewriteAllNodes (j : String → String → String) (base : String)
    (ns : List Node) : List Node :=
  passNodes (j base) "form" "action"
    (passNodes (j base) "script" "src"
      (passNodes (j base) "link" "href"
        (passNodes (j base) "img" "src"
          (passNodes (j base) "a" "href" ns))))

/-- Element created by `soup.new_tag('base', href=base_url)`
(browser_proxy.py line 249). -/
def baseElem (u : String) : Node := .elem "base" [("href", u)] []

mutual
/-- Insertion part of `_rewrite_urls` (browser_proxy.py lines 249-251):
`if soup.head: soup.head.insert(0, base_tag)`.  Walks the tree in
document order looking for the first element named `head`; inserts `b`
as its first child.  The boolean reports whether a head was found. -/
def insertHeadNode (b : Node) : Node → Node × Bool
  | .text s => (.text s, false)
  | .elem t a cs =>
    if t == "head" then (.elem t a (b :: cs), true)
    else
      match insertHeadNodes b cs with
      | (cs', true) => (.elem t a cs', true)
      | (_, false) => (.elem t a cs, false)

/-- List part of `insertHeadNode`. -/
def insertHeadNodes (b : Node) : List Node → List Node × Bool
  | [] => ([], false)
  | n :: ns =>
    match insertHeadNode b n with
    | (n', true) => (n' :: ns, true)
    | (_, false) =>
      match insertHeadNodes b ns with
      | (ns', ok) => (n :: ns', ok)
end

/-- Tree-level body of `_rewrite_urls` (browser_proxy.py lines 226-253):
the five attribute-rewriting passes followed by the `<base>` insertion
into the first `<head>` (a no-op when the document has no head). -/
def rewriteDocNodes (j : String → String → String) (base : String)
    (ns : List Node) : List Node :=
  (insertHeadNodes (baseElem base) (rewriteAllNodes j base ns)).1

mutual
/-- Number of elements with tag name `c` in a node's subtree. -/
def countTagNode (c : String) : Node → Nat
  | .text _ => 0
  | .elem t _ cs => (if t == c then 1 else 0) + countTagNodes c cs

/-- Number of elements with tag name `c` in a forest. -/
def countTagNodes (c : String) : List Node → Nat
  | [] => 0
  | n :: ns => countTagNode c n + countTagNodes c ns
end

mutual
/-- Children of the first element named `head` in document order,
modelling `soup.head` (which is `soup.find('head')`). -/
def firstHeadNode : Node → Option (List Node)
  | .text _ => none
  | .elem t _ cs => if t == "head" then some cs else firstHeadNodes cs

/-- List part of `firstHeadNode`. -/
def firstHeadNodes : List Node → Option (List Node)
  | [] => none
  | n :: ns =>
    match firstHeadNode n with
    | some cs => some cs
    | none => firstHeadNodes ns
end

/-- First child of the first `<head>` element of the forest. -/
def headFirstChild (ns : List Node) : Option Node :=
  (firstHeadNodes ns).bind List.head?

mutual
/-- Document-order list of the values of attribute `k` over the elements
named `t` of a node's subtree (the attribute values that the
`find_all(t, k=True)` loop of `_rewrite_urls` would visit). -/
def collectNode (t k : String) : Node → List String
  | .text _ => []
  | .elem t' a cs =>
    (if t' == t then
      match getAttr a k with
      | some v => [v]
      | none => []
     else []) ++ collectNodes t k cs

/-- List part of `collectNode`. -/
def collectNodes (t k : String) : List Node → List String
  | [] => []
  | n :: ns => collectNode t k n ++ collectNodes t k ns
end

/-- Map from a tag name to the attribute that `_rewrite_urls` rewrites on
it: `a.href`, `img.src`, `link.href`, `script.src`, `form.action`. -/
def linkAttr (t : String) : Option String :=
  if t == "a" then some "href"
  else if t == "img" then some "src"
  else if t == "link" then some "href"
  else if t == "script" then some "src"
  else if t == "form" then some "action"
  else none

mutual
/-- Erasure of exactly the attribute values that `_rewrite_urls` may
touch: on every element the value of its `linkAttr` attribute (when
present) is blanked.  Two forests with equal skeletons agree on
everything except those rewritable values: structure, text, tag names,
attribute names, order and presence. -/
def skeletonNode : Node → Node
  | .text s => .text s
  | .elem t a cs =>
    let a' := match linkAttr t with
      | some k => a.map (fun p => if p.1 == k then (k, "") else p)
      | none => a
    .elem t a' (skeletonNodes cs)

/-- List part of `skeletonNode`. -/
def skeletonNodes : List Node → List Node
  | [] => []
  | n :: ns => skeletonNode n :: skeletonNodes ns
end

/-- ASCII lower-casing of a character list, modelling Python `str.lower`
on the ASCII inputs this service handles. -/
def lowerChars (l : List Char) : List Char := l.map Char.toLower

/-- ASCII lower-casing of a string. -/
def lowerStr (s : String) : String := ⟨lowerChars s.data⟩

/-- Prefix test on character lists. -/
def isPrefixChars : List Char → List Char → Bool
  | [], _ => true
  | _ :: _, [] => false
  | c :: cs, d :: ds => c == d && isPrefixChars cs ds

/-- Substring search on character lists, modelling the Python
`needle in s` operator. -/
def containsChars (needle : List Char) : List Char → Bool
  | [] => isPrefixChars needle []
  | d :: ds => isPrefixChars needle (d :: ds) || containsChars needle ds

/-- Substring test, modelling the Python `needle in s` operator on
strings. -/
def containsSub (s needle : String) : Bool :=
  containsChars needle.data s.data

/-- Fuel-driven worker for `pySplit`; the fuel (list length plus one)
only forces termination and is never exhausted. -/
def pySplitAux (sep : List Char) : Nat → List Char → List Char → List (List Char)
  | 0, l, acc => [acc.reverse ++ l]
  | fuel+1, l, acc =>
    match l with
    | [] => [acc.reverse]
    | d :: ds =>
      if isPrefixChars sep l then
        acc.reverse :: pySplitAux sep fuel (l.drop sep.length) []
      else
        pySplitAux sep fuel ds (d :: acc)

/-- Python `s.split(sep)` for a non-empty separator: cut at each
non-overlapping occurrence of `sep`, scanning left to right. -/
def pySplit (s sep : List Char) : List (List Char) :=
  pySplitAux sep (s.length + 1) s []

/-- Whitespace by the Python `str.strip` notion (ASCII part). -/
def isPySpace (c : Char) : Bool :=
  c == ' ' || c == '\t' || c == '\n' || c == '\r' || c == '\x0b' || c == '\x0c'

/-- Python `s.strip()`: drop whitespace at both ends. -/
def stripChars (l : List Char) : List Char :=
  ((l.dropWhile isPySpace).reverse.dropWhile isPySpace).reverse

/-- Python `s.startswith(p)` on strings. -/
def startsWithStr (s p : String) : Bool := isPrefixChars p.data s.data

/-- Case-insensitive header lookup with default, modelling
`response.headers.get(name, "")` on the case-insensitive httpx header
multimap. -/
def headerGet (hs : List (String × String)) (name dflt : String) : String :=
  (((hs.find? (fun p => lowerStr p.1 == lowerStr name)).map (·.2)).getD dflt)

/-- Header names stripped by `_get_safe_headers`
(browser_proxy.py lines 269-280). -/
def unsafeHeaderNames : List String :=
  ["x-frame-options", "content-security-policy", "x-content-security-policy",
   "x-webkit-csp", "content-encoding", "transfer-encoding", "content-length"]

/-- Embedding of `BrowserProxyService._get_safe_headers`
(browser_proxy.py lines 258-289): drop, case-insensitively, the unsafe
header names; keep every other header unchanged and in order. -/
def get_safe_headers (hs : List (String × String)) : List (String × String) :=
  hs.filter (fun p => !(unsafeHeaderNames.contains (lowerStr p.1)))

/-- Parse result of `urllib.parse.urlparse` on the request URL, bundled
with the original string: `raw` is the unparsed URL (used as the rewrite
base), `scheme`/`netloc`/`hostname` are the components the validators
read. -/
structure URLParts where
  raw : String
  scheme : String
  netloc : String
  hostname : Option String

/-- Embedding of `BrowserProxyService._is_valid_url`
(browser_proxy.py lines 291-305): scheme must be `http` or `https` and
the netloc non-empty. -/
def is_valid_url (u : URLParts) : Bool :=
  (u.scheme == "http" || u.scheme == "https") && !(u.netloc == "")

/-- Literal block list of `_is_internal_url` (browser_proxy.py
lines 325-330). -/
def blockedHosts : List String := ["localhost", "127.0.0.1", "0.0.0.0", "::1"]

/-- Embedding of `BrowserProxyService._is_internal_url`
(browser_proxy.py lines 307-341): a missing hostname is blocked
(fail closed), the lower-cased hostname is checked against the literal
block list, and then the `10.` / `192.168.` / `172.` literal-prefix
check runs on the hostname. -/
def is_internal_url (u : URLParts) : Bool :=
  match u.hostname with
  | none => true
  | some h =>
    if blockedHosts.contains (lowerStr h) then true
    else startsWithStr h "10." || startsWithStr h "192.168." || startsWithStr h "172."

/-- Outcome of the `client.get(url)` call plus `raise_for_status()`
inside `fetch_page`: a timeout, an HTTP status error, any other
transport exception, or a response with headers and body bytes. -/
inductive NetOutcome where
  | timeoutError
  | httpStatusError (status : Nat)
  | transportError (msg : String)
  | success (headers : List (String × String)) (content : List Nat)

/-- Behaviour of the external libraries that `fetch_page` and
`_rewrite_urls` call, passed in explicitly: the network outcome for the
requested URL, the three decompressors (`none` models a raised
exception), chardet availability and its detection result (encoding and
confidence; `none` models no result or a raised exception), the
meta-charset scan (UTF-8-ignore decode of a byte prefix followed by the
first group of the regex `charset=["\x27]?([^"\x27>\s]+)`), codec
decoding with `errors='replace'` (`none` models an unknown-encoding
`LookupError`), the never-failing UTF-8 decode with replacement, the
BeautifulSoup parse (`none` models a parse/rewrite exception),
`urllib.parse.urljoin`, and serialization `str(soup)`. -/
structure Env where
  net : NetOutcome
  gzipDecompress : List Nat → Option (List Nat)
  zlibDecompress : List Nat → Option (List Nat)
  brotliAvailable : Bool
  brotliDecompress : List Nat → Option (List Nat)
  hasChardet : Bool
  chardetDetect : List Nat → Option (String × ℚ)
  metaCharsetScan : List Nat → Option String
  decodeBytes : String → List Nat → Option String
  decodeUtf8Replace : List Nat → String
  parseHtml : String → Option (List Node)
  urljoin : String → String → String
  render : List Node → String

/-- Result triple of `fetch_page`:
`(html_content, error_message, headers)`. -/
structure FetchResult where
  document : Option String
  error : Option String
  headers : Option (List (String × String))
deriving DecidableEq

/-- Decompression stage of `fetch_page` (browser_proxy.py
lines 100-135): sniff gzip by magic bytes `1F 8B`, deflate by
`78 9C`/`78 01` or by the declared `Content-Encoding`, brotli by the
declared header only; on a decompression failure (or missing brotli)
keep the original bytes. -/
def decompressStage (env : Env) (contentEncoding : String)
    (raw : List Nat) : List Nat :=
  let isGzip := raw.take 2 == [0x1f, 0x8b]
  let isDeflate := raw.take 2 == [0x78, 0x9c] || raw.take 2 == [0x78, 0x01]
  if isGzip then (env.gzipDecompress raw).getD raw
  else if isDeflate || contentEncoding == "deflate" || contentEncoding == "compress" then
    (env.zlibDecompress raw).getD raw
  else if contentEncoding == "br" then
    if env.brotliAvailable then (env.brotliDecompress raw).getD raw else raw
  else raw

/-- Stage 1 of the encoding cascade (browser_proxy.py lines 141-148):
`content_type.lower().split('charset=')[-1].split(';')[0].strip()`,
attempted only when `'charset=' in content_type.lower()`. -/
def headerCharset (contentType : String) : Option String :=
  let lower := lowerChars contentType.data
  if containsChars ("charset=".data) lower then
    some ⟨stripChars ((pySplit ((pySplit lower ("charset=".data)).getLastD []) (";".data)).headD [])⟩
  else none

/-- Low-trust test used between cascade stages (browser_proxy.py
lines 151, 167): `not encoding or encoding.lower() in
['iso-8859-1', 'ascii']` (the empty string is falsy in Python). -/
def lowTrust : Option String → Bool
  | none => true
  | some s => s == "" || lowerStr s == "iso-8859-1" || lowerStr s == "ascii"

/-- Encoding cascade of `fetch_page` (browser_proxy.py lines 141-178):
header charset, then the meta-tag scan of the first 2048 bytes (accepted
only when it names `utf-8`), then chardet on the first 10000 bytes
(accepted only above confidence 0.7), then the final
`if not encoding: encoding = 'utf-8'` default. -/
def resolveEncoding (metaScan : List Nat → Option String) (hasChardet : Bool)
    (chardet : List Nat → Option (String × ℚ))
    (contentType : String) (content : List Nat) : String :=
  let e1 := headerCharset contentType
  let e2 :=
    if lowTrust e1 then
      match metaScan (content.take 2048) with
      | some g => if lowerStr g == "utf-8" then some "utf-8" else e1
      | none => e1
    else e1
  let e3 :=
    if hasChardet && lowTrust e2 then
      match chardet (content.take 10000) with
      | some (enc, conf) => if conf > (7 : ℚ)/10 then some enc else e2
      | none => e2
    else e2
  match e3 with
  | none => "utf-8"
  | some s => if s == "" then "utf-8" else s

/-- Embedding of `BrowserProxyService._rewrite_urls`
(browser_proxy.py lines 213-256): parse, run the five rewrite passes,
insert the `<base>` tag into the first head, serialize; any parse or
rewrite exception degrades to returning the input HTML unchanged. -/
def rewrite_urls (env : Env) (html baseUrl : String) : String :=
  match env.parseHtml html with
  | none => html
  | some ns => env.render (rewriteDocNodes env.urljoin baseUrl ns)

/-- Embedding of `BrowserProxyService.fetch_page`
(browser_proxy.py lines 35-211): validation, SSRF check, fetch, the
`text/html` content-type gate, decompression, encoding resolution,
decoding with fallback, URL rewriting, header sanitization. -/
def fetch_page (env : Env) (u : URLParts) : FetchResult :=
  if !(is_valid_url u) then ⟨none, some "Invalid URL provided", none⟩
  else if is_internal_url u then
    ⟨none, some "Access to internal URLs is not allowed", none⟩
  else
    match env.net with
    | .timeoutError => ⟨none, some "Request timed out", none⟩
    | .httpStatusError code => ⟨none, some ("HTTP error: " ++ toString code), none⟩
    | .transportError msg => ⟨none, some ("Error fetching page: " ++ msg), none⟩
    | .success hdrs content =>
      let contentType := headerGet hdrs "Content-Type" ""
      if !(containsSub contentType "text/html") then
        ⟨none, some ("Non-HTML content type: " ++ contentType), none⟩
      else
        let contentEncoding := lowerStr (headerGet hdrs "content-encoding" "")
        let responseContent := decompressStage env contentEncoding content
        let encoding := resolveEncoding env.metaCharsetScan env.hasChardet
          env.chardetDetect contentType responseContent
        let htmlContent :=
          match env.decodeBytes encoding responseContent with
          | some s => s
          | none => env.decodeUtf8Replace responseContent
        let rewritten := rewrite_urls env htmlContent u.raw
        let safeHeaders := get_safe_headers hdrs
        ⟨some rewritten, none, some safeHeaders⟩

/-- Response of the `/api/browser/proxy` route: either an HTML response
with extra headers and a media type, or a raised `HTTPException` with a
status code and detail string. -/
inductive ProxyResponse where
  | html (headers : List (String × String)) (mediaType : String) (body : String)
  | httpError (status : Nat) (detail : String)
deriving DecidableEq

/-- Truthiness of an optional string, modelling Python `if error:`. -/
def truthy : Option String → Bool
  | none => false
  | some s => !(s == "")

/-- Embedding of the `proxy_page` route handler
(routers/browser.py lines 27-59): on a truthy error an
`HTTPException(400, error)`; otherwise an `HTMLResponse` whose extra
header dict holds exactly `Cache-Control: public, max-age=3600` and
whose media type is `text/html; charset=utf-8`.  The sanitized headers
returned by `fetch_page` are received but never placed on the response.
The final branch (no error, no document) cannot be reached
(`fetch_page_result_invariant`); in the source it would raise a
`TypeError` caught as a 500 `Server error`. -/
def proxy_page (env : Env) (u : URLParts) : ProxyResponse :=
  let r := fetch_page env u
  if truthy r.error then .httpError 400 (r.error.getD "")
  else
    match r.document with
    | some h =>
      .html [("Cache-Control", "public, max-age=3600")] "text/html; charset=utf-8" h
    | none => .httpError 500 "Server error: unreachable"

/-! ## Helper lemmas about attributes -/

theorem getAttr_setAttr (a : List (String × String)) (k v w : String)
    (h : getAttr a k = some v) : getAttr (setAttr a k w) k = some w := by
  induction a with
  | nil => simp [getAttr] at h
  | cons p ps ih =>
    by_cases hp : p.1 = k
    · have hb : (p.1 == k) = true := beq_iff_eq.mpr hp
      simp only [setAttr, List.map_cons, hb, if_true]
      simp [getAttr, List.find?_cons]
    · have hbf : (p.1 == k) = false := beq_eq_false_iff_ne.mpr hp
      have h' : getAttr ps k = some v := by
        simp only [getAttr, List.find?_cons, hbf] at h
        exact h
      have hrec := ih h'
      simp only [setAttr, List.map_cons, hbf]
      rw [if_neg (by simp)]
      simp only [getAttr, List.find?_cons, hbf]
      simp only [getAttr, setAttr] at hrec
      exact hrec

/-! ## Lemmas about a single rewriting pass -/

mutual
theorem collect_passNode_same (f : String → String) (t k : String) (n : Node) :
    collectNode t k (passNode f t k n) = (collectNode t k n).map f := by
  cases n with
  | text s => rfl
  | elem t' a cs =>
    cases ht : (t' == t) with
    | false =>
      simp [passNode, collectNode, ht, collect_passNodes_same f t k cs]
    | true =>
      cases hg : getAttr a k with
      | none =>
        simp [passNode, collectNode, ht, hg, collect_passNodes_same f t k cs]
      | some v =>
        simp [passNode, collectNode, ht, hg, collect_passNodes_same f t k cs,
          getAttr_setAttr a k v (f v) hg]

theorem collect_passNodes_same (f : String → String) (t k : String) (ns : List Node) :
    collectNodes t k (passNodes f t k ns) = (collectNodes t k ns).map f := by
  cases ns with
  | nil => rfl
  | cons n ns =>
    simp [passNodes, collectNodes, collect_passNode_same f t k n,
      collect_passNodes_same f t k ns]
end

mutual
theorem collect_passNode_other (f : String → String) (t k t' k' : String)
    (hne : t' ≠ t) (n : Node) :
    collectNode t' k' (passNode f t k n) = collectNode t' k' n := by
  cases n with
  | text s => rfl
  | elem tg a cs =>
    cases ht : (tg == t) with
    | false =>
      simp [passNode, collectNode, ht, collect_passNodes_other f t k t' k' hne cs]
    | true =>
      have htg : tg = t := by simpa using ht
      have htg' : (tg == t') = false := by
        subst htg; simp [Ne.symm hne]
      cases hg : getAttr a k with
      | none =>
        simp [passNode, collectNode, ht, hg, htg',
          collect_passNodes_other f t k t' k' hne cs]
      | some v =>
        simp [passNode, collectNode, ht, hg, htg',
          collect_passNodes_other f t k t' k' hne cs]

theorem collect_passNodes_other (f : String → String) (t k t' k' : String)
    (hne : t' ≠ t) (ns : List Node) :
    collectNodes t' k' (passNodes f t k ns) = collectNodes t' k' ns := by
  cases ns with
  | nil => rfl
  | cons n ns =>
    simp [passNodes, collectNodes, collect_passNode_other f t k t' k' hne n,
      collect_passNodes_other f t k t' k' hne ns]
end

mutual
theorem countTag_passNode (f : String → String) (t k c : String) (n : Node) :
    countTagNode c (passNode f t k n) = countTagNode c n := by
  cases n with
  | text s => rfl
  | elem t' a cs =>
    simp [passNode, countTagNode, countTag_passNodes f t k c cs]

theorem countTag_passNodes (f : String → String) (t k c : String) (ns : List Node) :
    countTagNodes c (passNodes f t k ns) = countTagNodes c ns := by
  cases ns with
  | nil => rfl
  | cons n ns =>
    simp [passNodes, countTagNodes, countTag_passNode f t k c n,
      countTag_passNodes f t k c ns]
end

mutual
theorem firstHead_passNode (f : String → String) (t k : String) (n : Node) :
    firstHeadNode (passNode f t k n) = (firstHeadNode n).map (passNodes f t k) := by
  cases n with
  | text s => rfl
  | elem t' a cs =>
    cases ht : (t' == "head") with
    | true => simp [passNode, firstHeadNode, ht]
    | false => simp [passNode, firstHeadNode, ht, firstHead_passNodes f t k cs]

theorem firstHead_passNodes (f : String → String) (t k : String) (ns : List Node) :
    firstHeadNodes (passNodes f t k ns) = (firstHeadNodes ns).map (passNodes f t k) := by
  cases ns with
  | nil => rfl
  | cons n ns =>
    simp only [passNodes, firstHeadNodes, firstHead_passNode f t k n]
    cases hn : firstHeadNode n with
    | some cs => simp
    | none => simp [firstHead_passNodes f t k ns]
end

theorem blank_setAttr (a : List (String × String)) (k v' : String) :
    (setAttr a k v').map (fun p => if p.1 = k then (k, "") else p)
      = a.map (fun p => if p.1 = k then (k, "") else p) := by
  unfold setAttr
  rw [List.map_map]
  apply List.map_congr_left
  intro p _
  by_cases hp : p.1 = k
  · have hb : (p.1 == k) = true := beq_iff_eq.mpr hp
    simp [Function.comp, hb, hp]
  · have hbf : (p.1 == k) = false := beq_eq_false_iff_ne.mpr hp
    simp [Function.comp, hbf, hp]

mutual
theorem skeleton_passNode (f : String → String) (t k : String)
    (hlk : linkAttr t = some k) (n : Node) :
    skeletonNode (passNode f t k n) = skeletonNode n := by
  cases n with
  | text s => rfl
  | elem t' a cs =>
    cases ht : (t' == t) with
    | false => simp [passNode, skeletonNode, ht, skeleton_passNodes f t k hlk cs]
    | true =>
      have htt : t' = t := by simpa using ht
      subst htt
      cases hg : getAttr a k with
      | none => simp [passNode, skeletonNode, ht, hg, skeleton_passNodes f t' k hlk cs]
      | some v =>
        simp [passNode, skeletonNode, ht, hg, hlk,
          skeleton_passNodes f t' k hlk cs, blank_setAttr a k (f v)]

theorem skeleton_passNodes (f : String → String) (t k : String)
    (hlk : linkAttr t = some k) (ns : List Node) :
    skeletonNodes (passNodes f t k ns) = skeletonNodes ns := by
  cases ns with
  | nil => rfl
  | cons n ns =>
    simp [passNodes, skeletonNodes, skeleton_passNode f t k hlk n,
      skeleton_passNodes f t k hlk ns]
end

mutual
theorem insertFlag_node (b : Node) (n : Node) :
    (insertHeadNode b n).2 = (firstHeadNode n).isSome := by
  cases n with
  | text s => rfl
  | elem t a cs =>
    cases ht : (t == "head") with
    | true => simp [insertHeadNode, firstHeadNode, ht]
    | false =>
      have hrec := insertFlag_nodes b cs
      simp only [insertHeadNode, firstHeadNode, ht]
      cases hi : insertHeadNodes b cs with
      | mk cs' ok =>
        rw [hi] at hrec
        cases ok <;> simp_all

theorem insertFlag_nodes (b : Node) (ns : List Node) :
    (insertHeadNodes b ns).2 = (firstHeadNodes ns).isSome := by
  cases ns with
  | nil => rfl
  | cons n ns =>
    have h1 := insertFlag_node b n
    have h2 := insertFlag_nodes b ns
    simp only [insertHeadNodes, firstHeadNodes]
    cases hn : insertHeadNode b n with
    | mk n' ok1 =>
      rw [hn] at h1
      cases ok1 with
      | true =>
        have : (firstHeadNode n).isSome = true := by simp_all
        cases hf : firstHeadNode n with
        | none => rw [hf] at this; simp at this
        | some cs => simp [hf]
      | false =>
        have hf : firstHeadNode n = none := by
          cases hf : firstHeadNode n with
          | none => rfl
          | some cs => rw [hf] at h1; simp at h1
        cases hm : insertHeadNodes b ns with
        | mk ns' ok2 =>
          rw [hm] at h2
          have h2' : ok2 = (firstHeadNodes ns).isSome := h2
          simp [hf, h2']
end

mutual
theorem countTag_insertNode (b : Node) (c : String) (n : Node) :
    countTagNode c (insertHeadNode b n).1
      = countTagNode c n
        + (if (insertHeadNode b n).2 then countTagNode c b else 0) := by
  cases n with
  | text s => simp [insertHeadNode, countTagNode]
  | elem t a cs =>
    cases ht : (t == "head") with
    | true =>
      simp only [insertHeadNode, ht, if_true, countTagNode, countTagNodes]
      omega
    | false =>
      have hrec := countTag_insertNodes b c cs
      simp only [insertHeadNode, ht, Bool.false_eq_true, if_false]
      cases hi : insertHeadNodes b cs with
      | mk cs' ok =>
        rw [hi] at hrec
        cases ok with
        | true =>
          simp only [countTagNode]
          simp only at hrec
          omega
        | false => simp [countTagNode]

theorem countTag_insertNodes (b : Node) (c : String) (ns : List Node) :
    countTagNodes c (insertHeadNodes b ns).1
      = countTagNodes c ns
        + (if (insertHeadNodes b ns).2 then countTagNode c b else 0) := by
  cases ns with
  | nil => simp [insertHeadNodes, countTagNodes]
  | cons n ns =>
    have h1 := countTag_insertNode b c n
    have h2 := countTag_insertNodes b c ns
    cases hn : insertHeadNode b n with
    | mk n' ok1 =>
      rw [hn] at h1
      cases ok1 with
      | true =>
        simp only [insertHeadNodes, hn, countTagNodes]
        simp only at h1
        omega
      | false =>
        cases hm : insertHeadNodes b ns with
        | mk ns' ok2 =>
          rw [hm] at h2
          simp only [insertHeadNodes, hn, hm, countTagNodes]
          simp only at h1 h2
          cases ok2 with
          | true =>
            simp only [if_true] at h2 ⊢
            omega
          | false =>
            simp only [Bool.false_eq_true, if_false] at h2 ⊢
            omega
end

mutual
theorem firstHead_insertNode (b : Node) (n : Node) :
    firstHeadNode (insertHeadNode b n).1
      = match firstHeadNode n with
        | some cs => some (b :: cs)
        | none => none := by
  cases n with
  | text s => rfl
  | elem t a cs =>
    cases ht : (t == "head") with
    | true => simp [insertHeadNode, firstHeadNode, ht]
    | false =>
      have hrec := firstHead_insertNodes b cs
      have hflag := insertFlag_nodes b cs
      simp only [insertHeadNode, firstHeadNode, ht, Bool.false_eq_true, if_false]
      cases hi : insertHeadNodes b cs with
      | mk cs' ok =>
        rw [hi] at hrec hflag
        cases ok with
        | true => simpa [firstHeadNode, ht] using hrec
        | false =>
          have : (firstHeadNodes cs).isSome = false := by simpa using hflag.symm
          cases hf : firstHeadNodes cs with
          | none => simp [firstHeadNode, ht, hf]
          | some cs0 => rw [hf] at this; simp at this

theorem firstHead_insertNodes (b : Node) (ns : List Node) :
    firstHeadNodes (insertHeadNodes b ns).1
      = match firstHeadNodes ns with
        | some cs => some (b :: cs)
        | none => none := by
  cases ns with
  | nil => rfl
  | cons n ns =>
    have h1 := firstHead_insertNode b n
    have hflag := insertFlag_node b n
    cases hn : insertHeadNode b n with
    | mk n' ok1 =>
      rw [hn] at h1 hflag
      cases ok1 with
      | true =>
        have : (firstHeadNode n).isSome = true := by simpa using hflag.symm
        cases hf : firstHeadNode n with
        | none => rw [hf] at this; simp at this
        | some cs0 =>
          rw [hf] at h1
          simp only [insertHeadNodes, hn, firstHeadNodes, hf]
          simp only at h1
          simp [h1]
      | false =>
        have : (firstHeadNode n).isSome = false := by simpa using hflag.symm
        cases hf : firstHeadNode n with
        | some cs0 => rw [hf] at this; simp at this
        | none =>
          have h2 := firstHead_insertNodes b ns
          cases hm : insertHeadNodes b ns with
          | mk ns' ok2 =>
            rw [hm] at h2
            simp only [insertHeadNodes, hn, hm, firstHeadNodes, hf]
            simpa using h2
end

mutual
theorem collect_insertNode (b : Node) (t k : String)
    (hb : collectNode t k b = []) (n : Node) :
    collectNode t k (insertHeadNode b n).1 = collectNode t k n := by
  cases n with
  | text s => rfl
  | elem tg a cs =>
    cases ht : (tg == "head") with
    | true => simp [insertHeadNode, collectNode, collectNodes, ht, hb]
    | false =>
      have hrec := collect_insertNodes b t k hb cs
      simp only [insertHeadNode, ht, Bool.false_eq_true, if_false]
      cases hi : insertHeadNodes b cs with
      | mk cs' ok =>
        rw [hi] at hrec
        cases ok with
        | true =>
          simp only [collectNode]
          simp only at hrec
          rw [hrec]
        | false => simp [collectNode]

theorem collect_insertNodes (b : Node) (t k : String)
    (hb : collectNode t k b = []) (ns : List Node) :
    collectNodes t k (insertHeadNodes b ns).1 = collectNodes t k ns := by
  cases ns with
  | nil => rfl
  | cons n ns =>
    have h1 := collect_insertNode b t k hb n
    have h2 := collect_insertNodes b t k hb ns
    cases hn : insertHeadNode b n with
    | mk n' ok1 =>
      rw [hn] at h1
      cases ok1 with
      | true =>
        simp only [insertHeadNodes, hn, collectNodes]
        simp only at h1
        rw [h1]
      | false =>
        cases hm : insertHeadNodes b ns with
        | mk ns' ok2 =>
          rw [hm] at h2
          simp only [insertHeadNodes, hn, hm, collectNodes]
          simp only at h2
          rw [h2]
end

/-! ## Derived lemmas about the composed rewrite -/

theorem linkAttr_cases {t k : String} (h : linkAttr t = some k) :
    (t = "a" ∧ k = "href") ∨ (t = "img" ∧ k = "src") ∨ (t = "link" ∧ k = "href")
      ∨ (t = "script" ∧ k = "src") ∨ (t = "form" ∧ k = "action") := by
  unfold linkAttr at h
  split_ifs at h with h1 h2 h3 h4 h5
  · exact Or.inl ⟨by simpa using h1, by injection h with h'; exact h'.symm⟩
  · exact Or.inr (Or.inl ⟨by simpa using h2, by injection h with h'; exact h'.symm⟩)
  · exact Or.inr (Or.inr (Or.inl ⟨by simpa using h3, by injection h with h'; exact h'.symm⟩))
  · exact Or.inr (Or.inr (Or.inr (Or.inl
      ⟨by simpa using h4, by injection h with h'; exact h'.symm⟩)))
  · exact Or.inr (Or.inr (Or.inr (Or.inr
      ⟨by simpa using h5, by injection h with h'; exact h'.symm⟩)))

theorem collect_rewriteAllNodes (j : String → String → String) (base t k : String)
    (hlk : linkAttr t = some k) (ns : List Node) :
    collectNodes t k (rewriteAllNodes j base ns)
      = (collectNodes t k ns).map (j base) := by
  unfold rewriteAllNodes
  rcases linkAttr_cases hlk with ⟨ht, hk⟩ | ⟨ht, hk⟩ | ⟨ht, hk⟩ | ⟨ht, hk⟩ | ⟨ht, hk⟩ <;>
    subst ht <;> subst hk
  · rw [collect_passNodes_other (j base) "form" "action" "a" "href" (by decide),
      collect_passNodes_other (j base) "script" "src" "a" "href" (by decide),
      collect_passNodes_other (j base) "link" "href" "a" "href" (by decide),
      collect_passNodes_other (j base) "img" "src" "a" "href" (by decide),
      collect_passNodes_same (j base) "a" "href"]
  · rw [collect_passNodes_other (j base) "form" "action" "img" "src" (by decide),
      collect_passNodes_other (j base) "script" "src" "img" "src" (by decide),
      collect_passNodes_other (j base) "link" "href" "img" "src" (by decide),
      collect_passNodes_same (j base) "img" "src",
      collect_passNodes_other (j base) "a" "href" "img" "src" (by decide)]
  · rw [collect_passNodes_other (j base) "form" "action" "link" "href" (by decide),
      collect_passNodes_other (j base) "script" "src" "link" "href" (by decide),
      collect_passNodes_same (j base) "link" "href",
      collect_passNodes_other (j base) "img" "src" "link" "href" (by decide),
      collect_passNodes_other (j base) "a" "href" "link" "href" (by decide)]
  · rw [collect_passNodes_other (j base) "form" "action" "script" "src" (by decide),
      collect_passNodes_same (j base) "script" "src",
      collect_passNodes_other (j base) "link" "href" "script" "src" (by decide),
      collect_passNodes_other (j base) "img" "src" "script" "src" (by decide),
      collect_passNodes_other (j base) "a" "href" "script" "src" (by decide)]
  · rw [collect_passNodes_same (j base) "form" "action",
      collect_passNodes_other (j base) "script" "src" "form" "action" (by decide),
      collect_passNodes_other (j base) "link" "href" "form" "action" (by decide),
      collect_passNodes_other (j base) "img" "src" "form" "action" (by decide),
      collect_passNodes_other (j base) "a" "href" "form" "action" (by decide)]

theorem countTag_rewriteAllNodes (j : String → String → String) (base c : String)
    (ns : List Node) :
    countTagNodes c (rewriteAllNodes j base ns) = countTagNodes c ns := by
  unfold rewriteAllNodes
  rw [countTag_passNodes, countTag_passNodes, countTag_passNodes, countTag_passNodes,
    countTag_passNodes]

theorem skeleton_rewriteAllNodes (j : String → String → String) (base : String)
    (ns : List Node) :
    skeletonNodes (rewriteAllNodes j base ns) = skeletonNodes ns := by
  unfold rewriteAllNodes
  rw [skeleton_passNodes (j base) "form" "action" (by decide),
    skeleton_passNodes (j base) "script" "src" (by decide),
    skeleton_passNodes (j base) "link" "href" (by decide),
    skeleton_passNodes (j base) "img" "src" (by decide),
    skeleton_passNodes (j base) "a" "href" (by decide)]

theorem firstHead_isSome_rewriteAllNodes (j : String → String → String) (base : String)
    (ns : List Node) :
    (firstHeadNodes (rewriteAllNodes j base ns)).isSome = (firstHeadNodes ns).isSome := by
  unfold rewriteAllNodes
  rw [firstHead_passNodes, firstHead_passNodes, firstHead_passNodes, firstHead_passNodes,
    firstHead_passNodes]
  cases firstHeadNodes ns <;> simp

theorem collect_baseElem (t k u : String) (hlk : linkAttr t = some k) :
    collectNode t k (baseElem u) = [] := by
  rcases linkAttr_cases hlk with ⟨ht, hk⟩ | ⟨ht, hk⟩ | ⟨ht, hk⟩ | ⟨ht, hk⟩ | ⟨ht, hk⟩ <;>
    subst ht <;> subst hk <;> rfl

theorem collect_rewriteDocNodes (j : String → String → String) (base t k : String)
    (hlk : linkAttr t = some k) (ns : List Node) :
    collectNodes t k (rewriteDocNodes j base ns)
      = (collectNodes t k ns).map (j base) := by
  unfold rewriteDocNodes
  rw [collect_insertNodes (baseElem base) t k (collect_baseElem t k base hlk),
    collect_rewriteAllNodes j base t k hlk]

theorem firstHead_isSome_rewriteDocNodes (j : String → String → String) (base : String)
    (ns : List Node) :
    (firstHeadNodes (rewriteDocNodes j base ns)).isSome = (firstHeadNodes ns).isSome := by
  unfold rewriteDocNodes
  rw [firstHead_insertNodes, ← firstHead_isSome_rewriteAllNodes j base ns]
  cases firstHeadNodes (rewriteAllNodes j base ns) <;> simp

theorem countTag_base_rewriteDocNodes (j : String → String → String) (base : String)
    (ns : List Node) :
    countTagNodes "base" (rewriteDocNodes j base ns)
      = countTagNodes "base" ns + (if (firstHeadNodes ns).isSome then 1 else 0) := by
  unfold rewriteDocNodes
  rw [countTag_insertNodes, countTag_rewriteAllNodes, insertFlag_nodes,
    firstHead_isSome_rewriteAllNodes]
  have hb : countTagNode "base" (baseElem base) = 1 := rfl
  rw [hb]

theorem countTag_meta_rewriteDocNodes (j : String → String → String) (base : String)
    (ns : List Node) :
    countTagNodes "meta" (rewriteDocNodes j base ns) = countTagNodes "meta" ns := by
  unfold rewriteDocNodes
  rw [countTag_insertNodes, countTag_rewriteAllNodes]
  have hb : countTagNode "meta" (baseElem base) = 0 := rfl
  rw [hb]
  cases (insertHeadNodes (baseElem base) (rewriteAllNodes j base ns)).2 <;> simp

/-! ## Concrete sample environments, URLs and documents used by witnesses
and counterexamples.  `Env` fields in order: net, gzipDecompress,
zlibDecompress, brotliAvailable, brotliDecompress, hasChardet,
chardetDetect, metaCharsetScan, decodeBytes, decodeUtf8Replace,
parseHtml, urljoin, render. -/

/-- Environment whose network request fails with a transport error and
whose library stubs all fail or return nothing. -/
def envStub : Env :=
  ⟨.transportError "stub", fun _ => none, fun _ => none, false, fun _ => none,
   false, fun _ => none, fun _ => none, fun _ _ => none, fun _ => "",
   fun _ => none, fun _ v => v, fun _ => ""⟩

/-- Environment delivering a successful `text/html` response carrying an
upstream `X-Custom` header; decoding yields a fixed document and parsing
fails (so rewriting returns the decoded document unchanged). -/
def envOk : Env :=
  ⟨.success [("Content-Type", "text/html"), ("X-Custom", "1")] [],
   fun _ => none, fun _ => none, false, fun _ => none,
   false, fun _ => none, fun _ => none, fun _ _ => some "<p>x</p>", fun _ => "",
   fun _ => none, fun _ v => v, fun _ => ""⟩

/-- Environment delivering a successful response whose content type is
`application/json`. -/
def envJson : Env :=
  ⟨.success [("Content-Type", "application/json")] [],
   fun _ => none, fun _ => none, false, fun _ => none,
   false, fun _ => none, fun _ => none, fun _ _ => some "x", fun _ => "",
   fun _ => none, fun _ v => v, fun _ => ""⟩

/-- Parse result of `http://example.com/`. -/
def urlExample : URLParts := ⟨"http://example.com/", "http", "example.com", some "example.com"⟩

/-- Parse result of `http://localhost/`. -/
def urlLocalhost : URLParts := ⟨"http://localhost/", "http", "localhost", some "localhost"⟩

/-- Parse result of `ftp://localhost/`: hostname `localhost`, but the
scheme fails URL validation. -/
def urlFtpLocalhost : URLParts := ⟨"ftp://localhost/", "ftp", "localhost", some "localhost"⟩

/-- Resolver stub that keeps every reference unchanged. -/
def joinId : String → String → String := fun _ v => v

/-- Resolver stub agreeing with `urllib.parse.urljoin` on the references
used in the counterexamples: an empty reference resolves to the base URL
itself (`urljoin(base, "") == base` minus any fragment), and any other
reference is kept (they are already absolute there). -/
def joinEmptyToBase : String → String → String := fun b v => if v == "" then b else v

/-- Document `<html><head><title>t</title></head><body></body></html>`:
it has a head and no meta tag of any kind. -/
def docHeadTitle : List Node :=
  [.elem "html" []
    [.elem "head" [] [.elem "title" [] [.text "t"]],
     .elem "body" [] []]]

/-- Document `<a href="">x</a>`: a single anchor whose href is present
but empty. -/
def docEmptyHref : List Node := [.elem "a" [("href", "")] [.text "x"]]

/-- Document `<html><head></head><body><a href="/x">y</a></body></html>`. -/
def docHeadLink : List Node :=
  [.elem "html" []
    [.elem "head" [] [],
     .elem "body" [] [.elem "a" [("href", "/x")] [.text "y"]]]]

/-! ## Claim theorems -/

/-- C5: for every environment (hence every network outcome and library
behaviour) and every URL, the `fetch_page` result triple has exactly one
of `document`/`error` set, and `headers` is set only alongside
`document`. -/
theorem c5_fetch_result_invariant (env : Env) (u : URLParts) :
    ((fetch_page env u).document.isSome = !(fetch_page env u).error.isSome)
      ∧ ((fetch_page env u).headers.isSome = true →
          (fetch_page env u).document.isSome = true) := by
  unfold fetch_page
  repeat' split
  all_goals simp
  all_goals split <;> simp

/-- C5 witness: on a concrete successful fetch the triple holds a
document, no error, and headers. -/
theorem c5_witness : (fetch_page envOk urlExample).document.isSome = true :=
  (c5_fetch_result_invariant envOk urlExample).2 (by decide)

/-- C7: whenever the fetched body starts with the gzip magic bytes
`1F 8B`, the decompression stage attempts gzip decompression whatever
the `Content-Encoding` header says, and a decompression failure falls
back to the original bytes (`fetch_page` feeds the stage's result to all
later stages instead of failing). -/
theorem c7_gzip_magic_decompression (env : Env) (ce : String) (raw : List Nat)
    (hmagic : raw.take 2 = [0x1f, 0x8b]) :
    decompressStage env ce raw = (env.gzipDecompress raw).getD raw := by
  unfold decompressStage
  have hb : (raw.take 2 == [0x1f, 0x8b]) = true := by rw [hmagic]; rfl
  simp [hb]

/-- C7 witness: a concrete gzip-magic payload on which the gzip library
stub fails is passed through unchanged, despite a `deflate` header. -/
theorem c7_witness : decompressStage envStub "deflate" [0x1f, 0x8b, 0x08] = [0x1f, 0x8b, 0x08] :=
  (c7_gzip_magic_decompression envStub "deflate" [0x1f, 0x8b, 0x08] (by decide)).trans rfl

/-- C8: a parse (or rewrite) failure makes `_rewrite_urls` return its
input HTML unchanged, and the successful `fetch_page` pipeline always
ends with a document and no error whatever the parser does, so the call
is never aborted by rewriting. -/
theorem c8_rewrite_failure_returns_original (env : Env) :
    (∀ html base, env.parseHtml html = none → rewrite_urls env html base = html)
      ∧ (∀ u hdrs content, env.net = .success hdrs content →
          is_valid_url u = true → is_internal_url u = false →
          containsSub (headerGet hdrs "Content-Type" "") "text/html" = true →
          (fetch_page env u).error = none ∧ (fetch_page env u).document.isSome = true) := by
  constructor
  · intro html base hp
    unfold rewrite_urls
    rw [hp]
  · intro u hdrs content hnet hv hi hct
    unfold fetch_page
    rw [hv, hi, hnet]
    simp [hct]

/-- C8 witness: a concrete environment whose parser always fails returns
the malformed input unchanged, and a concrete successful fetch through
that parser still produces a document. -/
theorem c8_witness :
    rewrite_urls envOk "<p <div" "http://example.com/" = "<p <div"
      ∧ (fetch_page envOk urlExample).error = none :=
  ⟨(c8_rewrite_failure_returns_original envOk).1 "<p <div" "http://example.com/" rfl,
   ((c8_rewrite_failure_returns_original envOk).2 urlExample
     [("Content-Type", "text/html"), ("X-Custom", "1")] [] rfl (by decide) (by decide)
     (by decide)).1⟩

/-- C9: a fetched response whose `Content-Type` header does not contain
`text/html` makes `fetch_page` return exactly the
`Non-HTML content type` error; the result does not depend on the
decompression, decoding or rewriting stubs, so none of those stages is
performed. -/
theorem c9_non_html_rejected (env : Env) (u : URLParts)
    (hdrs : List (String × String)) (content : List Nat)
    (hnet : env.net = .success hdrs content)
    (hv : is_valid_url u = true) (hi : is_internal_url u = false)
    (hct : containsSub (headerGet hdrs "Content-Type" "") "text/html" = false) :
    fetch_page env u
      = ⟨none, some ("Non-HTML content type: " ++ headerGet hdrs "Content-Type" ""), none⟩ := by
  unfold fetch_page
  rw [hv, hi, hnet]
  simp [hct]

/-- C9 witness: a concrete `application/json` response is rejected with
the expected message. -/
theorem c9_witness :
    fetch_page envJson urlExample
      = ⟨none, some "Non-HTML content type: application/json", none⟩ :=
  (c9_non_html_rejected envJson urlExample [("Content-Type", "application/json")] []
    rfl (by decide) (by decide) (by decide)).trans (by decide)

/-- C1 (amended): every URL whose hostname is in the literal block list
(case-insensitively) or starts with `10.`, `192.168.` or `172.` makes
`_is_internal_url` return true; and, provided the URL also passes
validation (scheme http/https, non-empty netloc), `fetch_page` returns
the `Access to internal URLs is not allowed` error for every
environment, in particular for every network behaviour — no fetch is
performed.  (The claim as stated fails for URLs that flunk validation,
such as `ftp://localhost/`, where the earlier `Invalid URL provided`
error wins; see the counterexample.) -/
theorem c1_internal_hosts_blocked (u : URLParts) (h : String)
    (hh : u.hostname = some h)
    (hblock : blockedHosts.contains (lowerStr h) = true
      ∨ startsWithStr h "10." = true ∨ startsWithStr h "192.168." = true
      ∨ startsWithStr h "172." = true) :
    is_internal_url u = true
      ∧ (is_valid_url u = true → ∀ env, fetch_page env u
          = ⟨none, some "Access to internal URLs is not allowed", none⟩) := by
  have hint : is_internal_url u = true := by
    unfold is_internal_url
    rw [hh]
    rcases hblock with hb | hb | hb | hb
    · have hb' : lowerStr h ∈ blockedHosts := by simpa using hb
      simp [hb']
    · simp [hb]
    · simp [hb]
    · simp [hb]
  refine ⟨hint, fun hv env => ?_⟩
  unfold fetch_page
  rw [hv, hint]
  simp

/-- C1 counterexample: `ftp://localhost/` has hostname `localhost`, so
`_is_internal_url` returns true, yet `fetch_page` returns the
`Invalid URL provided` error rather than the SSRF error, because URL
validation rejects the ftp scheme before the SSRF check runs. -/
theorem c1_cex :
    is_internal_url urlFtpLocalhost = true
      ∧ fetch_page envStub urlFtpLocalhost
          ≠ ⟨none, some "Access to internal URLs is not allowed", none⟩
      ∧ fetch_page envStub urlFtpLocalhost
          = ⟨none, some "Invalid URL provided", none⟩ := by
  refine ⟨by decide, by decide, by decide⟩

/-- C1 witness: `http://localhost/` is flagged internal and rejected with
the SSRF error. -/
theorem c1_witness :
    is_internal_url urlLocalhost = true
      ∧ fetch_page envStub urlLocalhost
          = ⟨none, some "Access to internal URLs is not allowed", none⟩ :=
  ⟨(c1_internal_hosts_blocked urlLocalhost "localhost" rfl (Or.inl (by decide))).1,
   (c1_internal_hosts_blocked urlLocalhost "localhost" rfl (Or.inl (by decide))).2
     (by decide) envStub⟩

/-- C4 (amended): when the Content-Type header carries no (or an empty)
charset parameter, the meta-tag scan of the first 2048 bytes does not
name utf-8, and chardet is unavailable or reports confidence at most
0.7, the resolved encoding is `utf-8`.  (When the header carries a
low-trust but non-empty value such as `iso-8859-1`, that value — not
`utf-8` — is kept; see the counterexample.) -/
theorem c4_encoding_defaults_to_utf8 (metaScan : List Nat → Option String)
    (hasC : Bool) (chardet : List Nat → Option (String × ℚ))
    (ct : String) (content : List Nat)
    (hhdr : headerCharset ct = none ∨ headerCharset ct = some "")
    (hmeta : ∀ g, metaScan (content.take 2048) = some g → lowerStr g ≠ "utf-8")
    (hchar : hasC = false
      ∨ ∀ e c, chardet (content.take 10000) = some (e, c) → c ≤ (7 : ℚ)/10) :
    resolveEncoding metaScan hasC chardet ct content = "utf-8" := by
  rcases hhdr with h1 | h1 <;>
  · cases hm : metaScan (content.take 2048) with
    | none =>
      rcases hchar with hc | hc
      · subst hc
        simp [resolveEncoding, h1, hm, lowTrust]
      · cases hasC with
        | false => simp [resolveEncoding, h1, hm, lowTrust]
        | true =>
          cases hcc : chardet (content.take 10000) with
          | none => simp [resolveEncoding, h1, hm, hcc, lowTrust]
          | some pr =>
            obtain ⟨e, c⟩ := pr
            have hle := hc e c hcc
            simp [resolveEncoding, h1, hm, hcc, lowTrust, not_lt.mpr hle]
    | some g =>
      have hbf : (lowerStr g == "utf-8") = false :=
        beq_eq_false_iff_ne.mpr (hmeta g hm)
      rcases hchar with hc | hc
      · subst hc
        simp [resolveEncoding, h1, hm, hbf, lowTrust]
      · cases hasC with
        | false => simp [resolveEncoding, h1, hm, hbf, lowTrust]
        | true =>
          cases hcc : chardet (content.take 10000) with
          | none => simp [resolveEncoding, h1, hm, hcc, hbf, lowTrust]
          | some pr =>
            obtain ⟨e, c⟩ := pr
            have hle := hc e c hcc
            simp [resolveEncoding, h1, hm, hcc, hbf, lowTrust, not_lt.mpr hle]

/-- C4 counterexample: with the Content-Type `text/html;
charset=iso-8859-1`, no meta-tag hit and no chardet result, the cascade
keeps `iso-8859-1` — the resolved encoding is not `utf-8`, because the
final default only replaces a missing/empty value. -/
theorem c4_cex :
    headerCharset "text/html; charset=iso-8859-1" = some "iso-8859-1"
      ∧ resolveEncoding (fun _ => none) true (fun _ => none)
          "text/html; charset=iso-8859-1" [] = "iso-8859-1"
      ∧ ("iso-8859-1" : String) ≠ "utf-8" := by
  refine ⟨by decide, by decide, by decide⟩

/-- C4 witness: no header charset, no meta hit, chardet guessing
`windows-1252` at confidence 0.4 — resolution falls back to `utf-8`. -/
theorem c4_witness :
    resolveEncoding (fun _ => none) true (fun _ => some ("windows-1252", (2 : ℚ)/5))
        "text/html" [] = "utf-8" :=
  c4_encoding_defaults_to_utf8 _ _ _ _ _ (Or.inl (by decide))
    (fun g hg => by simp at hg)
    (Or.inr (fun e c hc => by
      simp only [Option.some.injEq, Prod.mk.injEq] at hc
      rw [← hc.2]
      norm_num))

/-- C2 (amended): for every parsed document with a `<head>`,
`_rewrite_urls` inserts `<base href="{base_url}">` as the very first
child of the first head, and inserts no charset meta tag at all — the
number of `meta` elements is unchanged.  (The claim's
`<meta charset="utf-8">` insertion does not exist in the code; see the
counterexample.) -/
theorem c2_base_first_no_meta (j : String → String → String) (base : String)
    (ns : List Node) (hhead : (firstHeadNodes ns).isSome = true) :
    headFirstChild (rewriteDocNodes j base ns) = some (baseElem base)
      ∧ countTagNodes "meta" (rewriteDocNodes j base ns) = countTagNodes "meta" ns := by
  constructor
  · unfold rewriteDocNodes headFirstChild
    rw [firstHead_insertNodes]
    have h1 : (firstHeadNodes (rewriteAllNodes j base ns)).isSome = true := by
      rw [firstHead_isSome_rewriteAllNodes]; exact hhead
    cases hf : firstHeadNodes (rewriteAllNodes j base ns) with
    | none => rw [hf] at h1; simp at h1
    | some cs => simp
  · exact countTag_meta_rewriteDocNodes j base ns

/-- C2 counterexample: on a document with a head and no meta tags, the
rewritten head starts with the `<base>` element — not with an inserted
`<meta charset="utf-8">` — and the output contains zero meta elements,
so no charset meta tag was inserted. -/
theorem c2_cex :
    headFirstChild (rewriteDocNodes joinId "http://example.com/" docHeadTitle)
        = some (baseElem "http://example.com/")
      ∧ countTagNodes "meta" (rewriteDocNodes joinId "http://example.com/" docHeadTitle)
          = 0 := by
  exact ⟨rfl, rfl⟩

/-- C2 witness: the amended statement instantiated on the concrete
head-bearing document. -/
theorem c2_witness :
    countTagNodes "meta" (rewriteDocNodes joinId "http://example.com/" docHeadTitle)
      = countTagNodes "meta" docHeadTitle :=
  (c2_base_first_no_meta joinId "http://example.com/" docHeadTitle (by decide)).2

/-- C6 (amended): `_rewrite_urls` replaces the value of every present
`a/link href`, `img/script src` and `form action` attribute — present
empty values included — with the resolution of that value against the
base URL, in document order, and changes nothing else: absent
attributes stay absent, all other attributes, tags and text are
untouched (equal skeletons). -/
theorem c6_link_attrs_resolved (j : String → String → String) (base : String)
    (ns : List Node) :
    (∀ t k, linkAttr t = some k →
        collectNodes t k (rewriteAllNodes j base ns)
          = (collectNodes t k ns).map (j base))
      ∧ skeletonNodes (rewriteAllNodes j base ns) = skeletonNodes ns :=
  ⟨fun t k hlk => collect_rewriteAllNodes j base t k hlk ns,
   skeleton_rewriteAllNodes j base ns⟩

/-- C6 counterexample: on `<a href="">x</a>` the code does rewrite the
present-but-empty href — `find_all(href=True)` matches any present
attribute value — and standard resolution sends the empty reference to
the base URL itself, so the attribute does not stay untouched. -/
theorem c6_cex :
    collectNodes "a" "href" docEmptyHref = [""]
      ∧ collectNodes "a" "href"
          (rewriteAllNodes joinEmptyToBase "http://example.com/" docEmptyHref)
          = ["http://example.com/"]
      ∧ ("http://example.com/" : String) ≠ "" := by
  refine ⟨rfl, rfl, by decide⟩

/-- C6 witness: the amended statement applied to a concrete document with
one relative link, resolved by the identity stub. -/
theorem c6_witness :
    collectNodes "a" "href" (rewriteAllNodes joinId "http://example.com/" docHeadLink)
      = ["/x"] :=
  ((c6_link_attrs_resolved joinId "http://example.com/" docHeadLink).1 "a" "href"
    rfl).trans rfl

/-- C10 (amended): when the resolver is idempotent (as standard
relative-URL resolution against a fixed absolute base is), a second
`_rewrite_urls` pass leaves all five link attributes as the first pass
left them; but the inserted `<base>` tag IS duplicated — each pass over
a head-bearing document inserts one more `<base>` element. -/
theorem c10_second_pass (j : String → String → String) (base : String)
    (ns : List Node) (hj : ∀ v, j base (j base v) = j base v) :
    (∀ t k, linkAttr t = some k →
        collectNodes t k (rewriteDocNodes j base (rewriteDocNodes j base ns))
          = collectNodes t k (rewriteDocNodes j base ns))
      ∧ countTagNodes "base" (rewriteDocNodes j base (rewriteDocNodes j base ns))
          = countTagNodes "base" (rewriteDocNodes j base ns)
            + (if (firstHeadNodes ns).isSome then 1 else 0) := by
  constructor
  · intro t k hlk
    have h1 := collect_rewriteDocNodes j base t k hlk ns
    have h2 := collect_rewriteDocNodes j base t k hlk (rewriteDocNodes j base ns)
    rw [h2, h1, List.map_map]
    apply List.map_congr_left
    intro v _
    simpa using hj v
  · rw [countTag_base_rewriteDocNodes j base (rewriteDocNodes j base ns),
      firstHead_isSome_rewriteDocNodes]

set_option maxHeartbeats 1000000 in
/-- C10 counterexample: rewriting a head-bearing document twice leaves
two `<base>` elements where one pass leaves one — the inserted base tag
is duplicated by the second pass. -/
theorem c10_cex :
    countTagNodes "base"
        (rewriteDocNodes joinId "http://example.com/"
          (rewriteDocNodes joinId "http://example.com/" docHeadTitle)) = 2
      ∧ countTagNodes "base"
          (rewriteDocNodes joinId "http://example.com/" docHeadTitle) = 1 := by
  exact ⟨rfl, rfl⟩

/-- C10 witness: the amended statement instantiated with the identity
resolver on a concrete document. -/
theorem c10_witness :
    collectNodes "a" "href"
        (rewriteDocNodes joinId "http://example.com/"
          (rewriteDocNodes joinId "http://example.com/" docHeadLink))
      = collectNodes "a" "href" (rewriteDocNodes joinId "http://example.com/" docHeadLink) :=
  (c10_second_pass joinId "http://example.com/" docHeadLink (fun _ => rfl)).1 "a" "href" rfl

/-- C3 (amended): on success the `/proxy` route responds with extra
headers holding exactly `Cache-Control: public, max-age=3600` and media
type `text/html; charset=utf-8` around the proxied document; the
sanitized upstream headers computed by `fetch_page` are NOT added to the
response; on a fetch error the route raises HTTP 400 carrying the error
message. -/
theorem c3_route_response (env : Env) (u : URLParts) :
    (∀ e, (fetch_page env u).error = some e → e ≠ "" →
        proxy_page env u = .httpError 400 e)
      ∧ (∀ d, (fetch_page env u).error = none → (fetch_page env u).document = some d →
          proxy_page env u
            = .html [("Cache-Control", "public, max-age=3600")]
                "text/html; charset=utf-8" d) := by
  constructor
  · intro e he hne
    simp only [proxy_page, he]
    simp [truthy, hne]
  · intro d he hd
    simp only [proxy_page, he, hd]
    simp [truthy]

/-- C3 counterexample: a successful proxied fetch carrying an upstream
`X-Custom: 1` header produces a response whose extra headers are only
the Cache-Control pair, although the header sanitizer keeps `X-Custom`:
the sanitized upstream headers are not sent with the response. -/
theorem c3_cex :
    proxy_page envOk urlExample
        = .html [("Cache-Control", "public, max-age=3600")]
            "text/html; charset=utf-8" "<p>x</p>"
      ∧ ("X-Custom", "1")
          ∈ get_safe_headers [("Content-Type", "text/html"), ("X-Custom", "1")]
      ∧ ("X-Custom", "1")
          ∉ [(("Cache-Control" : String), ("public, max-age=3600" : String))] := by
  refine ⟨by decide, by decide, by decide⟩

/-- C3 witness: the amended statement instantiated on a failing fetch
(non-HTML content) and on a successful one. -/
theorem c3_witness :
    proxy_page envJson urlExample
        = .httpError 400 "Non-HTML content type: application/json"
      ∧ proxy_page envOk urlExample
          = .html [("Cache-Control", "public, max-age=3600")]
              "text/html; charset=utf-8" "<p>x</p>" :=
  ⟨(c3_route_response envJson urlExample).1 "Non-HTML content type: application/json"
      (by decide) (by decide),
   (c3_route_response envOk urlExample).2 "<p>x</p>" (by decide) (by decide)⟩
